import Mathlib

/-!
Shallow embedding of `er_cloudflare_account/import_tfstate.py` (and the data
model of `er_cloudflare_account/app_interface_input.py`).

Modelling choices:
* Python strings are Lean `String`s (lists of `Char`); `str.lower` is modelled
  on its ASCII range (`lowerChar`), which is the range the sanitization
  character class `[a-z0-9]` can keep.
* The Cloudflare SDK call `client.accounts.members.list(...)` is modelled by
  an explicit argument `listMembersResult : Except Unit (List Member)`:
  `Except.error ()` stands for "the call raised some exception",
  `Except.ok live` for a successful fetch of member records.
* `terraform_run` (the import executor) is modelled by an oracle
  `exec : ExecCall → ExecOutcome`; each invocation of `import_resource`
  records the call it makes (`ExecCall`, including the `dry_run` flag), so
  the functions return a pair: the results and the trace of executor calls.
* A Python `dict` built by a comprehension in iteration order is an
  association list in the same order; `dictGet` returns the value of the
  LAST binding of a key, matching dict-overwrite semantics. Python
  truthiness of the `if (user := member.user) and (email := user.email)`
  guard is modelled exactly: `None` and the empty string are falsy.
-/

set_option autoImplicit false

namespace ERCA

/-- `CloudflareAccountMember` from `app_interface_input.py`. -/
structure CloudflareAccountMember where
  email : String
  roles : List String
  deriving DecidableEq, Repr

/-- `CloudflareAccount` from `app_interface_input.py`. -/
structure CloudflareAccount where
  account_id : Option String := none
  name : String
  type : Option String := none
  enforce_twofactor : Option Bool := none
  members : List CloudflareAccountMember := []
  deriving DecidableEq, Repr

/-- `ImportResult` from `import_tfstate.py`. -/
structure ImportResult where
  resource_address : String
  import_id : String
  success : Bool
  error_message : Option String := none
  deriving DecidableEq, Repr

/-- `AccountNotFoundError` from `import_tfstate.py`. -/
structure AccountNotFoundError where
  message : String
  deriving DecidableEq, Repr

/-- The `user` object of a Cloudflare SDK member record, narrowed to the one
field the code reads (`user.email`, which may be absent). -/
structure User where
  email : Option String := none
  deriving DecidableEq, Repr

/-- A Cloudflare SDK member record, narrowed to the fields the code reads:
`member.id` and `member.user`. -/
structure Member where
  id : String
  user : Option User := none
  deriving DecidableEq, Repr

/-- One invocation of the external import executor
(`terraform_run(["import", resource_address, import_id], dry_run=dry_run)`). -/
structure ExecCall where
  resource_address : String
  import_id : String
  dry_run : Bool
  deriving DecidableEq, Repr

/-- Outcome of one executor invocation: success, or a
`subprocess.CalledProcessError` carrying the diagnostic text the code would
extract (`str(e.stderr) if e.stderr else str(e)`). -/
inductive ExecOutcome where
  | ok : ExecOutcome
  | err (msg : String) : ExecOutcome
  deriving DecidableEq, Repr

/-- ASCII `str.lower` on one character: `A`-`Z` (65-90) maps to `a`-`z`. -/
def lowerChar (c : Char) : Char :=
  if 65 ≤ c.toNat ∧ c.toNat ≤ 90 then Char.ofNat (c.toNat + 32) else c

/-- Membership in the regex character class `[a-z0-9]`. -/
def isAllowed (c : Char) : Bool :=
  (97 ≤ c.toNat && c.toNat ≤ 122) || (48 ≤ c.toNat && c.toNat ≤ 57)

/-- Executable model of `re.sub(r"[^a-z0-9]+", "-", ·)` as a one-pass state
machine: `inRun` is true while inside a (maximal) run of characters outside
`[a-z0-9]`; the first character of each run emits the single `-`, the rest of
the run emits nothing. -/
def subRuns : Bool → List Char → List Char
  | _, [] => []
  | inRun, c :: cs =>
    if isAllowed c then c :: subRuns false cs
    else if inRun then subRuns true cs
    else '-' :: subRuns true cs

/-- `sanitize_email` from `import_tfstate.py`:
`re.sub(r"[^a-z0-9]+", "-", email.lower())`. -/
def sanitize_email (email : String) : String :=
  ⟨subRuns false (email.data.map lowerChar)⟩

/-- Modelled from the spec's words, for comparison with `sanitize_email`
(claim C7): after lower-casing, "replace every maximal run of one-or-more
characters outside `[a-z0-9]` with a single hyphen". A maximal run is
consumed whole by `dropWhile` and replaced by one `-`. -/
def sanitizeRefList : List Char → List Char
  | [] => []
  | c :: cs =>
    if isAllowed c then c :: sanitizeRefList cs
    else '-' :: sanitizeRefList (cs.dropWhile (fun d => !isAllowed d))
termination_by l => l.length
decreasing_by
  · simp only [List.length_cons]; omega
  · simp only [List.length_cons]
    exact Nat.lt_succ_of_le (List.dropWhile_sublist _).length_le

/-- Reference form of the whole sanitization, per the spec's words. -/
def sanitizeRef (email : String) : String :=
  ⟨sanitizeRefList (email.data.map lowerChar)⟩

/-- The dict comprehension of `import_account_members`:
`{email: member.id for member in live if (user := member.user) and (email := user.email)}`,
kept as the association list of the bindings in iteration order. A member
with `user` absent, or with `user.email` absent or empty (falsy), produces no
binding. -/
def member_id_by_email (live : List Member) : List (String × String) :=
  live.filterMap fun m =>
    match m.user with
    | none => none
    | some u =>
      match u.email with
      | none => none
      | some e => if e = "" then none else some (e, m.id)

/-- `dict.get`: the value of the last binding of `key` (a later binding in a
dict comprehension overwrites an earlier one), or `none`. -/
def dictGet : List (String × String) → String → Option String
  | [], _ => none
  | (k, v) :: rest, key =>
    match dictGet rest key with
    | some v2 => some v2
    | none => if k = key then some v else none

/-- `import_resource` from `import_tfstate.py`: one executor invocation;
on `CalledProcessError` the diagnostic text is captured into the result.
Also returns the (singleton) trace of the executor call it made. -/
def import_resource (exec : ExecCall → ExecOutcome)
    (resource_address import_id : String) (dry_run : Bool) :
    ImportResult × List ExecCall :=
  let call : ExecCall := ⟨resource_address, import_id, dry_run⟩
  match exec call with
  | .ok =>
    (⟨resource_address, import_id, true, none⟩, [call])
  | .err msg =>
    (⟨resource_address, import_id, false, some msg⟩, [call])

/-- `import_account` from `import_tfstate.py`. -/
def import_account (exec : ExecCall → ExecOutcome) (account_id : String)
    (dry_run : Bool) : ImportResult × List ExecCall :=
  import_resource exec "cloudflare_account.this" account_id dry_run

/-- The body of the member loop of `import_account_members` for one declared
member: look the email up in the index; if absent, a failed result and no
executor call; if present, one `import_resource` call with import id
`account_id ++ "/" ++ member_id`. -/
def mstep (exec : ExecCall → ExecOutcome) (idx : List (String × String))
    (account_id : String) (dry_run : Bool) (m : CloudflareAccountMember) :
    ImportResult × List ExecCall :=
  let resource_address :=
    "cloudflare_account_member.this[\"" ++ sanitize_email m.email ++ "\"]"
  match dictGet idx m.email with
  | none =>
    (⟨resource_address, "", false,
      some ("Account member '" ++ m.email ++ "' not found")⟩, [])
  | some member_id =>
    import_resource exec resource_address
      (account_id ++ "/" ++ member_id) dry_run

/-- The member loop of `import_account_members`: one result per declared
member, in declaration order, with the executor calls concatenated. -/
def membersLoop (exec : ExecCall → ExecOutcome) (idx : List (String × String))
    (account_id : String) (dry_run : Bool) :
    List CloudflareAccountMember → List ImportResult × List ExecCall
  | [] => ([], [])
  | m :: rest =>
    let (r, cs) := mstep exec idx account_id dry_run m
    let (tr, tcs) := membersLoop exec idx account_id dry_run rest
    (r :: tr, cs ++ tcs)

/-- `import_account_members` from `import_tfstate.py`: if the list-members
call raised, log and return the empty result list; otherwise build the
email index and run the member loop. -/
def import_account_members (exec : ExecCall → ExecOutcome)
    (listMembersResult : Except Unit (List Member)) (account_id : String)
    (members : List CloudflareAccountMember) (dry_run : Bool) :
    List ImportResult × List ExecCall :=
  match listMembersResult with
  | .error _ => ([], [])
  | .ok live =>
    membersLoop exec (member_id_by_email live) account_id dry_run members

/-- `import_state` from `import_tfstate.py`: fail with
`AccountNotFoundError` when the account id is absent; otherwise the
account's import result followed by the member results. -/
def import_state (exec : ExecCall → ExecOutcome)
    (listMembersResult : Except Unit (List Member))
    (account : CloudflareAccount) (dry_run : Bool) :
    Except AccountNotFoundError (List ImportResult × List ExecCall) :=
  match account.account_id with
  | none => .error ⟨"Account ID is required for import"⟩
  | some account_id =>
    let (accRes, accCalls) := import_account exec account_id dry_run
    let (memRes, memCalls) :=
      import_account_members exec listMembersResult account_id
        account.members dry_run
    .ok (accRes :: memRes, accCalls ++ memCalls)

/-- `main` from `import_tfstate.py`, from the point where `import_state`
is invoked: tally failures over the returned results and exit with code 1
when any failed, 0 otherwise. An `AccountNotFoundError` propagates uncaught
(modelled as `Except.error`). -/
def main (exec : ExecCall → ExecOutcome)
    (listMembersResult : Except Unit (List Member))
    (account : CloudflareAccount) (dry_run : Bool) :
    Except AccountNotFoundError Nat :=
  match import_state exec listMembersResult account dry_run with
  | .error e => .error e
  | .ok (results, _) =>
    let failed := (results.filter fun r => !r.success).length
    if failed > 0 then .ok 1 else .ok 0

/-! ### Lemmas about the sanitization pass -/

theorem subRuns_true_eq (cs : List Char) :
    subRuns true cs = subRuns false (cs.dropWhile (fun d => !isAllowed d)) := by
  induction cs with
  | nil => rfl
  | cons c cs ih =>
    by_cases h : isAllowed c = true
    · simp [subRuns, h, List.dropWhile_cons]
    · simp only [Bool.not_eq_true] at h
      simp [subRuns, h, List.dropWhile_cons, ih]

theorem subRuns_false_ref (l : List Char) : subRuns false l = sanitizeRefList l := by
  induction l using sanitizeRefList.induct with
  | case1 => rw [sanitizeRefList]; rfl
  | case2 c cs h ih =>
    rw [sanitizeRefList]
    simp [subRuns, h, ih]
  | case3 c cs h ih =>
    rw [sanitizeRefList]
    simp only [Bool.not_eq_true] at h
    simp [subRuns, h, subRuns_true_eq, ih]

theorem subRuns_mem (b : Bool) (l : List Char) :
    ∀ c ∈ subRuns b l, isAllowed c = true ∨ c = '-' := by
  induction l generalizing b with
  | nil => intro c hc; simp [subRuns] at hc
  | cons a l ih =>
    intro c hc
    by_cases h : isAllowed a = true
    · simp only [subRuns, h, if_pos] at hc
      rcases List.mem_cons.mp hc with rfl | hc
      · exact Or.inl h
      · exact ih false c hc
    · simp only [Bool.not_eq_true] at h
      cases b with
      | true =>
        simp only [subRuns, h] at hc
        exact ih true c hc
      | false =>
        simp only [subRuns, h] at hc
        rcases List.mem_cons.mp hc with rfl | hc
        · exact Or.inr rfl
        · exact ih true c hc

theorem lowerChar_id_of (c : Char) (h : isAllowed c = true ∨ c = '-') :
    lowerChar c = c := by
  rcases h with h | rfl
  · simp only [isAllowed, Bool.or_eq_true, Bool.and_eq_true, decide_eq_true_eq] at h
    rw [lowerChar, if_neg]
    omega
  · decide

theorem map_eq_self_of {α : Type} (f : α → α) (l : List α)
    (h : ∀ a ∈ l, f a = a) : l.map f = l := by
  induction l with
  | nil => rfl
  | cons a l ih =>
    simp only [List.map_cons, h a (List.mem_cons_self a l),
      ih fun a ha => h a (List.mem_cons_of_mem _ ha)]

theorem subRuns_idem (l : List Char) :
    subRuns false (subRuns false l) = subRuns false l ∧
    subRuns true (subRuns true l) = subRuns true l := by
  induction l with
  | nil => exact ⟨rfl, rfl⟩
  | cons c cs ih =>
    have hd : isAllowed '-' = false := by decide
    by_cases hc : isAllowed c = true
    · constructor <;> simp [subRuns, hc, ih.1]
    · simp only [Bool.not_eq_true] at hc
      constructor <;> simp [subRuns, hc, hd, ih.2]

/-! ### Lemmas about the executor wrapper and the member loop -/

theorem import_resource_snd (exec : ExecCall → ExecOutcome) (a i : String)
    (d : Bool) : (import_resource exec a i d).2 = [⟨a, i, d⟩] := by
  cases h : exec ⟨a, i, d⟩ <;> simp [import_resource, h]

theorem import_resource_fst (exec : ExecCall → ExecOutcome) (a i : String)
    (d : Bool) : (import_resource exec a i d).1.resource_address = a ∧
      (import_resource exec a i d).1.import_id = i := by
  cases h : exec ⟨a, i, d⟩ <;> simp [import_resource, h]

theorem mstep_none (exec : ExecCall → ExecOutcome) (idx : List (String × String))
    (aid : String) (d : Bool) (m : CloudflareAccountMember)
    (h : dictGet idx m.email = none) :
    mstep exec idx aid d m =
      (⟨"cloudflare_account_member.this[\"" ++ sanitize_email m.email ++ "\"]", "",
        false, some ("Account member '" ++ m.email ++ "' not found")⟩, []) := by
  simp [mstep, h]

theorem mstep_some (exec : ExecCall → ExecOutcome) (idx : List (String × String))
    (aid : String) (d : Bool) (m : CloudflareAccountMember) (mid : String)
    (h : dictGet idx m.email = some mid) :
    mstep exec idx aid d m =
      import_resource exec
        ("cloudflare_account_member.this[\"" ++ sanitize_email m.email ++ "\"]")
        (aid ++ "/" ++ mid) d := by
  simp [mstep, h]

theorem mstep_fst_address (exec : ExecCall → ExecOutcome)
    (idx : List (String × String)) (aid : String) (d : Bool)
    (m : CloudflareAccountMember) :
    (mstep exec idx aid d m).1.resource_address =
      "cloudflare_account_member.this[\"" ++ sanitize_email m.email ++ "\"]" := by
  cases h : dictGet idx m.email with
  | none => rw [mstep_none exec idx aid d m h]
  | some mid =>
    rw [mstep_some exec idx aid d m mid h]
    exact (import_resource_fst exec _ _ d).1

theorem mstep_fst_id_of_some (exec : ExecCall → ExecOutcome)
    (idx : List (String × String)) (aid : String) (d : Bool)
    (m : CloudflareAccountMember) (mid : String)
    (h : dictGet idx m.email = some mid) :
    (mstep exec idx aid d m).1.import_id = aid ++ "/" ++ mid := by
  rw [mstep_some exec idx aid d m mid h]
  exact (import_resource_fst exec _ _ d).2

theorem mstep_fst_proj (e1 e2 : ExecCall → ExecOutcome)
    (idx : List (String × String)) (aid : String) (d1 d2 : Bool)
    (m : CloudflareAccountMember) :
    (mstep e1 idx aid d1 m).1.resource_address =
      (mstep e2 idx aid d2 m).1.resource_address ∧
    (mstep e1 idx aid d1 m).1.import_id = (mstep e2 idx aid d2 m).1.import_id := by
  refine ⟨?_, ?_⟩
  · rw [mstep_fst_address, mstep_fst_address]
  · cases h : dictGet idx m.email with
    | none => rw [mstep_none e1 idx aid d1 m h, mstep_none e2 idx aid d2 m h]
    | some mid =>
      rw [mstep_fst_id_of_some e1 idx aid d1 m mid h,
        mstep_fst_id_of_some e2 idx aid d2 m mid h]

theorem mstep_snd_proj (e1 e2 : ExecCall → ExecOutcome)
    (idx : List (String × String)) (aid : String) (d1 d2 : Bool)
    (m : CloudflareAccountMember) :
    (mstep e1 idx aid d1 m).2.map (fun c => (c.resource_address, c.import_id)) =
    (mstep e2 idx aid d2 m).2.map (fun c => (c.resource_address, c.import_id)) := by
  cases h : dictGet idx m.email with
  | none => rw [mstep_none e1 idx aid d1 m h, mstep_none e2 idx aid d2 m h]
  | some mid =>
    rw [mstep_some e1 idx aid d1 m mid h, mstep_some e2 idx aid d2 m mid h,
      import_resource_snd, import_resource_snd]
    rfl

theorem mstep_snd_dry (exec : ExecCall → ExecOutcome)
    (idx : List (String × String)) (aid : String) (d : Bool)
    (m : CloudflareAccountMember) :
    ∀ c ∈ (mstep exec idx aid d m).2, c.dry_run = d := by
  intro c hc
  cases h : dictGet idx m.email with
  | none => rw [mstep_none exec idx aid d m h] at hc; simp at hc
  | some mid =>
    rw [mstep_some exec idx aid d m mid h, import_resource_snd] at hc
    simp only [List.mem_singleton] at hc
    subst hc
    rfl

theorem membersLoop_cons (exec : ExecCall → ExecOutcome)
    (idx : List (String × String)) (aid : String) (d : Bool)
    (m : CloudflareAccountMember) (ms : List CloudflareAccountMember) :
    membersLoop exec idx aid d (m :: ms) =
      ((mstep exec idx aid d m).1 :: (membersLoop exec idx aid d ms).1,
       (mstep exec idx aid d m).2 ++ (membersLoop exec idx aid d ms).2) := rfl

theorem membersLoop_fst (exec : ExecCall → ExecOutcome)
    (idx : List (String × String)) (aid : String) (d : Bool)
    (ms : List CloudflareAccountMember) :
    (membersLoop exec idx aid d ms).1 =
      ms.map fun m => (mstep exec idx aid d m).1 := by
  induction ms with
  | nil => rfl
  | cons m ms ih => rw [membersLoop_cons, List.map_cons, ih]

theorem membersLoop_snd_length (exec : ExecCall → ExecOutcome)
    (idx : List (String × String)) (aid : String) (d : Bool)
    (ms : List CloudflareAccountMember) :
    (membersLoop exec idx aid d ms).2.length =
      ms.countP fun m => (dictGet idx m.email).isSome := by
  induction ms with
  | nil => rfl
  | cons m ms ih =>
    rw [membersLoop_cons]
    simp only [List.length_append, ih, List.countP_cons]
    cases h : dictGet idx m.email with
    | none => simp [mstep_none exec idx aid d m h, h]
    | some mid =>
      rw [mstep_some exec idx aid d m mid h, import_resource_snd]
      simp [h, Nat.add_comm]

theorem membersLoop_snd_dry (exec : ExecCall → ExecOutcome)
    (idx : List (String × String)) (aid : String) (d : Bool)
    (ms : List CloudflareAccountMember) :
    ∀ c ∈ (membersLoop exec idx aid d ms).2, c.dry_run = d := by
  induction ms with
  | nil => intro c hc; simp [membersLoop] at hc
  | cons m ms ih =>
    intro c hc
    rw [membersLoop_cons] at hc
    rcases List.mem_append.mp hc with hc | hc
    · exact mstep_snd_dry exec idx aid d m c hc
    · exact ih c hc

theorem membersLoop_fst_proj (e1 e2 : ExecCall → ExecOutcome)
    (idx : List (String × String)) (aid : String) (d1 d2 : Bool)
    (ms : List CloudflareAccountMember) :
    (membersLoop e1 idx aid d1 ms).1.map
        (fun r => (r.resource_address, r.import_id)) =
      (membersLoop e2 idx aid d2 ms).1.map
        (fun r => (r.resource_address, r.import_id)) := by
  induction ms with
  | nil => rfl
  | cons m ms ih =>
    rw [membersLoop_cons, membersLoop_cons, List.map_cons, List.map_cons, ih,
      (mstep_fst_proj e1 e2 idx aid d1 d2 m).1,
      (mstep_fst_proj e1 e2 idx aid d1 d2 m).2]

theorem membersLoop_snd_proj (e1 e2 : ExecCall → ExecOutcome)
    (idx : List (String × String)) (aid : String) (d1 d2 : Bool)
    (ms : List CloudflareAccountMember) :
    (membersLoop e1 idx aid d1 ms).2.map
        (fun c => (c.resource_address, c.import_id)) =
      (membersLoop e2 idx aid d2 ms).2.map
        (fun c => (c.resource_address, c.import_id)) := by
  induction ms with
  | nil => rfl
  | cons m ms ih =>
    rw [membersLoop_cons, membersLoop_cons, List.map_append, List.map_append,
      ih, mstep_snd_proj e1 e2 idx aid d1 d2 m]

/-! ### Lemmas about the live-member index -/

theorem member_id_by_email_append (l1 l2 : List Member) :
    member_id_by_email (l1 ++ l2) =
      member_id_by_email l1 ++ member_id_by_email l2 :=
  List.filterMap_append ..

theorem dictGet_append (l1 l2 : List (String × String)) (k : String) :
    dictGet (l1 ++ l2) k =
      match dictGet l2 k with
      | some v => some v
      | none => dictGet l1 k := by
  induction l1 with
  | nil =>
    show dictGet l2 k = _
    cases dictGet l2 k <;> rfl
  | cons e l1 ih =>
    obtain ⟨k1, v1⟩ := e
    simp only [List.cons_append, dictGet]
    rw [show l1.append l2 = l1 ++ l2 from rfl, ih]
    cases dictGet l2 k <;> cases dictGet l1 k <;> rfl

theorem dictGet_last (xs : List (String × String)) (e v : String) :
    dictGet (xs ++ [(e, v)]) e = some v := by
  rw [dictGet_append]
  simp [dictGet]

theorem member_id_by_email_excluded (m : Member)
    (h : m.user = none ∨ ∃ u, m.user = some u ∧ u.email = none) :
    member_id_by_email [m] = [] := by
  rcases h with h | ⟨u, hu, he⟩
  · simp [member_id_by_email, h]
  · simp [member_id_by_email, hu, he]

theorem member_id_by_email_cons (m : Member) (rest : List Member) :
    member_id_by_email (m :: rest) =
      member_id_by_email [m] ++ member_id_by_email rest := by
  rw [show m :: rest = [m] ++ rest from rfl, member_id_by_email_append]

theorem dictGet_member_id_by_email_exact (live : List Member) (e v : String)
    (h : dictGet (member_id_by_email live) e = some v) :
    ∃ mem, mem ∈ live ∧
      ∃ u, mem.user = some u ∧ u.email = some e ∧ mem.id = v := by
  induction live with
  | nil => simp [member_id_by_email, dictGet] at h
  | cons m rest ih =>
    rw [member_id_by_email_cons] at h
    cases hm : m.user with
    | none =>
      rw [member_id_by_email_excluded m (Or.inl hm), List.nil_append] at h
      obtain ⟨mem, hmem, hr⟩ := ih h
      exact ⟨mem, List.mem_cons_of_mem _ hmem, hr⟩
    | some u =>
      cases hu : u.email with
      | none =>
        rw [member_id_by_email_excluded m (Or.inr ⟨u, hm, hu⟩),
          List.nil_append] at h
        obtain ⟨mem, hmem, hr⟩ := ih h
        exact ⟨mem, List.mem_cons_of_mem _ hmem, hr⟩
      | some e2 =>
        by_cases he2 : e2 = ""
        · have h0 : member_id_by_email [m] = [] := by
            simp [member_id_by_email, hm, hu, he2]
          rw [h0, List.nil_append] at h
          obtain ⟨mem, hmem, hr⟩ := ih h
          exact ⟨mem, List.mem_cons_of_mem _ hmem, hr⟩
        · have h1 : member_id_by_email [m] = [(e2, m.id)] := by
            simp [member_id_by_email, hm, hu, he2]
          rw [h1] at h
          rw [show dictGet ([(e2, m.id)] ++ member_id_by_email rest) e =
              (match dictGet (member_id_by_email rest) e with
               | some v2 => some v2
               | none => if e2 = e then some m.id else none) from rfl] at h
          cases hrest : dictGet (member_id_by_email rest) e with
          | some v2 =>
            rw [hrest] at h
            obtain rfl : v2 = v := by simpa using h
            obtain ⟨mem, hmem, hr⟩ := ih hrest
            exact ⟨mem, List.mem_cons_of_mem _ hmem, hr⟩
          | none =>
            rw [hrest] at h
            by_cases he : e2 = e
            · subst he
              obtain rfl : m.id = v := by simpa using h
              exact ⟨m, List.mem_cons_self m rest, u, hm, hu, rfl⟩
            · simp [he] at h

/-! ### Unfolding `import_state` and the exit-code tally -/

theorem import_state_ok (exec : ExecCall → ExecOutcome)
    (api : Except Unit (List Member)) (acct : CloudflareAccount) (aid : String)
    (d : Bool) (h : acct.account_id = some aid) :
    import_state exec api acct d =
      .ok ((import_account exec aid d).1 ::
             (import_account_members exec api aid acct.members d).1,
           (import_account exec aid d).2 ++
             (import_account_members exec api aid acct.members d).2) := by
  unfold import_state
  rw [h]

theorem import_state_none (exec : ExecCall → ExecOutcome)
    (api : Except Unit (List Member)) (acct : CloudflareAccount) (d : Bool)
    (h : acct.account_id = none) :
    import_state exec api acct d =
      .error ⟨"Account ID is required for import"⟩ := by
  unfold import_state
  rw [h]

theorem filter_not_success_pos (results : List ImportResult) :
    0 < (results.filter fun r => !r.success).length ↔
      ∃ r ∈ results, r.success = false := by
  rw [List.length_pos]
  constructor
  · intro h
    obtain ⟨r, hr⟩ := List.exists_mem_of_ne_nil _ h
    have hm := List.mem_filter.mp hr
    exact ⟨r, hm.1, by simpa using hm.2⟩
  · rintro ⟨r, hr, hs⟩
    exact List.ne_nil_of_mem (List.mem_filter.mpr ⟨hr, by simp [hs]⟩)

theorem filter_not_success_zero (results : List ImportResult) :
    (results.filter fun r => !r.success).length = 0 ↔
      ∀ r ∈ results, r.success = true := by
  rw [List.length_eq_zero, List.filter_eq_nil_iff]
  constructor
  · intro h r hr
    have := h r hr
    simpa using this
  · intro h r hr
    simp [h r hr]

theorem import_account_eq (exec : ExecCall → ExecOutcome) (aid : String)
    (d : Bool) :
    import_account exec aid d =
      import_resource exec "cloudflare_account.this" aid d := rfl

theorem mstep_fst_id (exec : ExecCall → ExecOutcome)
    (idx : List (String × String)) (aid : String) (d : Bool)
    (m : CloudflareAccountMember) :
    (mstep exec idx aid d m).1.import_id =
      match dictGet idx m.email with
      | some mid => aid ++ "/" ++ mid
      | none => "" := by
  cases h : dictGet idx m.email with
  | none => rw [mstep_none exec idx aid d m h]
  | some mid => rw [mstep_fst_id_of_some exec idx aid d m mid h]

theorem iam_fst_proj (exec : ExecCall → ExecOutcome)
    (api : Except Unit (List Member)) (aid : String) (d1 d2 : Bool)
    (ms : List CloudflareAccountMember) :
    (import_account_members exec api aid ms d1).1.map
        (fun r => (r.resource_address, r.import_id)) =
      (import_account_members exec api aid ms d2).1.map
        (fun r => (r.resource_address, r.import_id)) := by
  cases api with
  | error u => rfl
  | ok live => exact membersLoop_fst_proj exec exec (member_id_by_email live) aid d1 d2 ms

theorem iam_snd_proj (exec : ExecCall → ExecOutcome)
    (api : Except Unit (List Member)) (aid : String) (d1 d2 : Bool)
    (ms : List CloudflareAccountMember) :
    (import_account_members exec api aid ms d1).2.map
        (fun c => (c.resource_address, c.import_id)) =
      (import_account_members exec api aid ms d2).2.map
        (fun c => (c.resource_address, c.import_id)) := by
  cases api with
  | error u => rfl
  | ok live => exact membersLoop_snd_proj exec exec (member_id_by_email live) aid d1 d2 ms

theorem iam_snd_dry (exec : ExecCall → ExecOutcome)
    (api : Except Unit (List Member)) (aid : String) (d : Bool)
    (ms : List CloudflareAccountMember) :
    ∀ c ∈ (import_account_members exec api aid ms d).2, c.dry_run = d := by
  cases api with
  | error u => intro c hc; simp [import_account_members] at hc
  | ok live => exact membersLoop_snd_dry exec (member_id_by_email live) aid d ms

/-! ### The claims -/

/-- C6: if the account identifier is absent, `import_state` raises the
precondition error (`AccountNotFoundError` with the source's message) and
returns no results. The statement holds for EVERY executor oracle and EVERY
outcome of the list-members API call, so the erroring run depends on
neither: no import executor invocation and no API interaction takes place. -/
theorem claim_C6 (exec : ExecCall → ExecOutcome)
    (api : Except Unit (List Member)) (acct : CloudflareAccount) (d : Bool)
    (h : acct.account_id = none) :
    import_state exec api acct d =
      .error ⟨"Account ID is required for import"⟩ :=
  import_state_none exec api acct d h

theorem claim_C6_witness :
    import_state (fun _ => ExecOutcome.ok) (Except.ok [])
        ⟨none, "Test Account", none, none, []⟩ false =
      .error ⟨"Account ID is required for import"⟩ :=
  claim_C6 (fun _ => ExecOutcome.ok) (Except.ok [])
    ⟨none, "Test Account", none, none, []⟩ false rfl

/-- C7: `sanitize_email` equals the reference definition taken from the
spec's words (lower-case the whole string, then replace every maximal run of
characters outside `[a-z0-9]` with a single hyphen), and the four example
inputs map to the stated outputs. -/
theorem claim_C7 :
    (∀ s : String, sanitize_email s = sanitizeRef s) ∧
    sanitize_email "user@example.com" = "user-example-com" ∧
    sanitize_email "User.Name+tag@Example.COM" = "user-name-tag-example-com" ∧
    sanitize_email "test123@domain.org" = "test123-domain-org" ∧
    sanitize_email "a..b@@c..d" = "a-b-c-d" :=
  ⟨fun s => congrArg String.mk (subRuns_false_ref (s.data.map lowerChar)),
    by decide, by decide, by decide, by decide⟩

/-- C8: `sanitize_email` is idempotent. -/
theorem claim_C8 (e : String) :
    sanitize_email (sanitize_email e) = sanitize_email e := by
  show String.mk
      (subRuns false ((subRuns false (e.data.map lowerChar)).map lowerChar)) =
    String.mk (subRuns false (e.data.map lowerChar))
  rw [map_eq_self_of lowerChar _
      (fun c hc => lowerChar_id_of c (subRuns_mem false _ c hc)),
    (subRuns_idem _).1]

/-- C3: for every run in which `import_state` returns normally, the entry
point exits with status 1 iff at least one returned result has
`success = false`, and with status 0 iff all returned results have
`success = true` (including the zero-member case). -/
theorem claim_C3 (exec : ExecCall → ExecOutcome)
    (api : Except Unit (List Member)) (acct : CloudflareAccount) (d : Bool)
    (results : List ImportResult) (calls : List ExecCall)
    (h : import_state exec api acct d = .ok (results, calls)) :
    (main exec api acct d = .ok 1 ↔ ∃ r ∈ results, r.success = false) ∧
    (main exec api acct d = .ok 0 ↔ ∀ r ∈ results, r.success = true) := by
  have hmain : main exec api acct d =
      if 0 < (results.filter fun r => !r.success).length
      then .ok 1 else .ok 0 := by
    unfold main
    rw [h]
  by_cases hp : 0 < (results.filter fun r => !r.success).length
  · rw [hmain, if_pos hp]
    have hex := (filter_not_success_pos results).mp hp
    obtain ⟨r, hr, hs⟩ := hex
    refine ⟨⟨fun _ => ⟨r, hr, hs⟩, fun _ => rfl⟩, iff_of_false (by simp) ?_⟩
    intro hall
    rw [hall r hr] at hs
    exact absurd hs (by decide)
  · rw [hmain, if_neg hp]
    have hall := (filter_not_success_zero results).mp (Nat.eq_zero_of_not_pos hp)
    refine ⟨iff_of_false (by simp) ?_, ⟨fun _ => hall, fun _ => rfl⟩⟩
    rintro ⟨r, hr, hs⟩
    rw [hall r hr] at hs
    exact absurd hs (by decide)

theorem claim_C3_witness :
    main (fun _ => ExecOutcome.err "boom") (Except.ok [])
        ⟨some "acct-123", "Test Account", none, none, []⟩ false = .ok 1 :=
  (claim_C3 (fun _ => ExecOutcome.err "boom") (Except.ok [])
      ⟨some "acct-123", "Test Account", none, none, []⟩ false
      [⟨"cloudflare_account.this", "acct-123", false, some "boom"⟩]
      [⟨"cloudflare_account.this", "acct-123", false⟩] rfl).1.mpr
    ⟨⟨"cloudflare_account.this", "acct-123", false, some "boom"⟩,
      List.mem_cons_self _ _, rfl⟩

/-- C4: with a known account id and a successful list-members call,
`import_state` returns `1 + n` results: the account result first, with
address `cloudflare_account.this` and import id the account id, then one
result per declared member in declaration order; each member result's
address carries the sanitized email as map key, and a member matched to the
live id `mid` gets import id `aid ++ "/" ++ mid` (an unmatched one the
empty import id). -/
theorem claim_C4 (exec : ExecCall → ExecOutcome) (live : List Member)
    (acct : CloudflareAccount) (aid : String) (d : Bool)
    (res : List ImportResult) (calls : List ExecCall)
    (h1 : acct.account_id = some aid)
    (h2 : import_state exec (Except.ok live) acct d = .ok (res, calls)) :
    res.length = 1 + acct.members.length ∧
    res.map (fun r => r.resource_address) =
      "cloudflare_account.this" ::
        acct.members.map (fun m =>
          "cloudflare_account_member.this[\"" ++ sanitize_email m.email ++ "\"]") ∧
    res.map (fun r => r.import_id) =
      aid :: acct.members.map (fun m =>
        match dictGet (member_id_by_email live) m.email with
        | some mid => aid ++ "/" ++ mid
        | none => "") := by
  have hok := (import_state_ok exec (Except.ok live) acct aid d h1).symm.trans h2
  obtain ⟨hres, hcalls⟩ : _ ∧ _ := by simpa using hok
  have hloop : (import_account_members exec (Except.ok live) aid
      acct.members d).1 =
      (membersLoop exec (member_id_by_email live) aid d acct.members).1 := rfl
  refine ⟨?_, ?_, ?_⟩
  · rw [← hres, List.length_cons, hloop, membersLoop_fst, List.length_map]
    omega
  · rw [← hres, List.map_cons, hloop, membersLoop_fst, List.map_map,
      import_account_eq,
      (import_resource_fst exec "cloudflare_account.this" aid d).1]
    exact congrArg _ (List.map_congr_left fun m _ =>
      mstep_fst_address exec (member_id_by_email live) aid d m)
  · rw [← hres, List.map_cons, hloop, membersLoop_fst, List.map_map,
      import_account_eq,
      (import_resource_fst exec "cloudflare_account.this" aid d).2]
    exact congrArg _ (List.map_congr_left fun m _ =>
      mstep_fst_id exec (member_id_by_email live) aid d m)

theorem claim_C4_witness :
    ([⟨"cloudflare_account.this", "acct-123", true, none⟩,
      ⟨"cloudflare_account_member.this[\"user-example-com\"]",
        "acct-123/member-456", true, none⟩] : List ImportResult).length =
        1 + 1 ∧
    ([⟨"cloudflare_account.this", "acct-123", true, none⟩,
      ⟨"cloudflare_account_member.this[\"user-example-com\"]",
        "acct-123/member-456", true, none⟩] : List ImportResult).map
        (fun r => r.resource_address) =
      "cloudflare_account.this" ::
        ([⟨"user@example.com", ["Administrator Read Only"]⟩] :
            List CloudflareAccountMember).map (fun m =>
          "cloudflare_account_member.this[\"" ++ sanitize_email m.email ++
            "\"]") ∧
    ([⟨"cloudflare_account.this", "acct-123", true, none⟩,
      ⟨"cloudflare_account_member.this[\"user-example-com\"]",
        "acct-123/member-456", true, none⟩] : List ImportResult).map
        (fun r => r.import_id) =
      "acct-123" ::
        ([⟨"user@example.com", ["Administrator Read Only"]⟩] :
            List CloudflareAccountMember).map (fun m =>
          match dictGet (member_id_by_email
              [⟨"member-456", some ⟨some "user@example.com"⟩⟩]) m.email with
          | some mid => "acct-123" ++ "/" ++ mid
          | none => "") :=
  claim_C4 (fun _ => ExecOutcome.ok)
    [⟨"member-456", some ⟨some "user@example.com"⟩⟩]
    ⟨some "acct-123", "Test Account", none, none,
      [⟨"user@example.com", ["Administrator Read Only"]⟩]⟩
    "acct-123" false
    [⟨"cloudflare_account.this", "acct-123", true, none⟩,
      ⟨"cloudflare_account_member.this[\"user-example-com\"]",
        "acct-123/member-456", true, none⟩]
    [⟨"cloudflare_account.this", "acct-123", false⟩,
      ⟨"cloudflare_account_member.this[\"user-example-com\"]",
        "acct-123/member-456", false⟩]
    rfl rfl

/-- C5: a declared member whose email is not in the live index (after a
successful list-members call) yields, at its position in the result list, a
failed result with empty import id and the error message naming the missing
email; the full result list still has one entry per declared member, and the
executor is invoked exactly once for the account plus once per MATCHED
member only — so never for this member. -/
theorem claim_C5 (exec : ExecCall → ExecOutcome) (live : List Member)
    (acct : CloudflareAccount) (aid : String) (d : Bool)
    (res : List ImportResult) (calls : List ExecCall) (i : Nat)
    (m : CloudflareAccountMember)
    (h1 : acct.account_id = some aid)
    (h2 : import_state exec (Except.ok live) acct d = .ok (res, calls))
    (h3 : acct.members[i]? = some m)
    (h4 : dictGet (member_id_by_email live) m.email = none) :
    res[i + 1]? = some
      ⟨"cloudflare_account_member.this[\"" ++ sanitize_email m.email ++ "\"]",
        "", false, some ("Account member '" ++ m.email ++ "' not found")⟩ ∧
    res.length = 1 + acct.members.length ∧
    calls.length = 1 + acct.members.countP
      (fun m2 => (dictGet (member_id_by_email live) m2.email).isSome) := by
  have hok := (import_state_ok exec (Except.ok live) acct aid d h1).symm.trans h2
  obtain ⟨hres, hcalls⟩ : _ ∧ _ := by simpa using hok
  have hloop : import_account_members exec (Except.ok live) aid
      acct.members d =
      membersLoop exec (member_id_by_email live) aid d acct.members := rfl
  refine ⟨?_, ?_, ?_⟩
  · rw [← hres, List.getElem?_cons_succ, hloop, membersLoop_fst,
      List.getElem?_map, h3]
    simp [mstep_none exec (member_id_by_email live) aid d m h4]
  · rw [← hres, List.length_cons, hloop, membersLoop_fst, List.length_map]
    omega
  · rw [← hcalls, import_account_eq, import_resource_snd,
      List.length_append, hloop, membersLoop_snd_length]
    simp [Nat.add_comm]

theorem claim_C5_witness :
    ([⟨"cloudflare_account.this", "acct-123", true, none⟩,
      ⟨"cloudflare_account_member.this[\"missing-example-com\"]", "", false,
        some "Account member 'missing@example.com' not found"⟩] :
        List ImportResult)[0 + 1]? = some
      ⟨"cloudflare_account_member.this[\"missing-example-com\"]", "", false,
        some "Account member 'missing@example.com' not found"⟩ ∧
    ([⟨"cloudflare_account.this", "acct-123", true, none⟩,
      ⟨"cloudflare_account_member.this[\"missing-example-com\"]", "", false,
        some "Account member 'missing@example.com' not found"⟩] :
        List ImportResult).length = 1 + 1 ∧
    ([⟨"cloudflare_account.this", "acct-123", false⟩] :
        List ExecCall).length =
      1 + ([⟨"missing@example.com", ["Administrator Read Only"]⟩] :
          List CloudflareAccountMember).countP
        (fun m2 => (dictGet (member_id_by_email []) m2.email).isSome) := by
  refine claim_C5 (fun _ => ExecOutcome.ok) []
    ⟨some "acct-123", "Test Account", none, none,
      [⟨"missing@example.com", ["Administrator Read Only"]⟩]⟩
    "acct-123" false
    [⟨"cloudflare_account.this", "acct-123", true, none⟩,
      ⟨"cloudflare_account_member.this[\"missing-example-com\"]", "", false,
        some "Account member 'missing@example.com' not found"⟩]
    [⟨"cloudflare_account.this", "acct-123", false⟩] 0
    ⟨"missing@example.com", ["Administrator Read Only"]⟩
    rfl rfl rfl rfl

theorem import_state_calls_dry (exec : ExecCall → ExecOutcome)
    (api : Except Unit (List Member)) (acct : CloudflareAccount)
    (aid : String) (d : Bool) (res : List ImportResult)
    (calls : List ExecCall) (hacc : acct.account_id = some aid)
    (h : import_state exec api acct d = .ok (res, calls)) :
    calls.all (fun c => c.dry_run == d) = true := by
  have e := (import_state_ok exec api acct aid d hacc).symm.trans h
  obtain ⟨hres, hcalls⟩ : _ ∧ _ := by simpa using e
  rw [List.all_eq_true]
  intro c hc
  rw [← hcalls] at hc
  rcases List.mem_append.mp hc with hc | hc
  · rw [import_account_eq, import_resource_snd] at hc
    simp only [List.mem_singleton] at hc
    subst hc
    simp
  · rw [beq_iff_eq]
    exact iam_snd_dry exec api aid d acct.members c hc

/-- C9: two runs of `import_state` that differ only in the dry-run flag
attempt the same sequence of resources: the (address, import id)
projections of both the returned results and the executor-call traces
coincide, and each run passes its flag's value to every executor
invocation. -/
theorem claim_C9 (exec : ExecCall → ExecOutcome)
    (api : Except Unit (List Member)) (acct : CloudflareAccount)
    (d1 d2 : Bool) (res1 res2 : List ImportResult)
    (calls1 calls2 : List ExecCall)
    (h1 : import_state exec api acct d1 = .ok (res1, calls1))
    (h2 : import_state exec api acct d2 = .ok (res2, calls2)) :
    res1.map (fun r => (r.resource_address, r.import_id)) =
      res2.map (fun r => (r.resource_address, r.import_id)) ∧
    calls1.map (fun c => (c.resource_address, c.import_id)) =
      calls2.map (fun c => (c.resource_address, c.import_id)) ∧
    calls1.all (fun c => c.dry_run == d1) = true ∧
    calls2.all (fun c => c.dry_run == d2) = true := by
  cases hacc : acct.account_id with
  | none =>
    rw [import_state_none exec api acct d1 hacc] at h1
    cases h1
  | some aid =>
    have e1 := (import_state_ok exec api acct aid d1 hacc).symm.trans h1
    have e2 := (import_state_ok exec api acct aid d2 hacc).symm.trans h2
    obtain ⟨hres1, hcalls1⟩ : _ ∧ _ := by simpa using e1
    obtain ⟨hres2, hcalls2⟩ : _ ∧ _ := by simpa using e2
    refine ⟨?_, ?_,
      import_state_calls_dry exec api acct aid d1 res1 calls1 hacc h1,
      import_state_calls_dry exec api acct aid d2 res2 calls2 hacc h2⟩
    · simp only [← hres1, ← hres2, List.map_cons]
      rw [iam_fst_proj exec api aid d1 d2, import_account_eq,
        import_account_eq,
        (import_resource_fst exec "cloudflare_account.this" aid d1).1,
        (import_resource_fst exec "cloudflare_account.this" aid d1).2,
        (import_resource_fst exec "cloudflare_account.this" aid d2).1,
        (import_resource_fst exec "cloudflare_account.this" aid d2).2]
    · simp only [← hcalls1, ← hcalls2, List.map_append]
      rw [iam_snd_proj exec api aid d1 d2, import_account_eq,
        import_account_eq, import_resource_snd, import_resource_snd]
      rfl

theorem claim_C9_witness :
    ([⟨"cloudflare_account.this", "acct-123", true, none⟩,
      ⟨"cloudflare_account_member.this[\"user-example-com\"]",
        "acct-123/member-456", true, none⟩] : List ImportResult).map
        (fun r => (r.resource_address, r.import_id)) =
      ([⟨"cloudflare_account.this", "acct-123", true, none⟩,
        ⟨"cloudflare_account_member.this[\"user-example-com\"]",
          "acct-123/member-456", true, none⟩] : List ImportResult).map
        (fun r => (r.resource_address, r.import_id)) ∧
    ([⟨"cloudflare_account.this", "acct-123", true⟩,
      ⟨"cloudflare_account_member.this[\"user-example-com\"]",
        "acct-123/member-456", true⟩] : List ExecCall).all
      (fun c => c.dry_run == true) = true :=
  have h := claim_C9 (fun _ => ExecOutcome.ok)
    (Except.ok [⟨"member-456", some ⟨some "user@example.com"⟩⟩])
    ⟨some "acct-123", "Test Account", none, none,
      [⟨"user@example.com", ["Administrator Read Only"]⟩]⟩
    true false
    [⟨"cloudflare_account.this", "acct-123", true, none⟩,
      ⟨"cloudflare_account_member.this[\"user-example-com\"]",
        "acct-123/member-456", true, none⟩]
    [⟨"cloudflare_account.this", "acct-123", true, none⟩,
      ⟨"cloudflare_account_member.this[\"user-example-com\"]",
        "acct-123/member-456", true, none⟩]
    [⟨"cloudflare_account.this", "acct-123", true⟩,
      ⟨"cloudflare_account_member.this[\"user-example-com\"]",
        "acct-123/member-456", true⟩]
    [⟨"cloudflare_account.this", "acct-123", false⟩,
      ⟨"cloudflare_account_member.this[\"user-example-com\"]",
        "acct-123/member-456", false⟩]
    rfl rfl
  ⟨h.1, h.2.2.1⟩

/-- C10: a live member record whose `user` field is absent, or whose user
email is absent, contributes nothing to the email index (first conjunct);
consequently a declared member whose only live counterpart is such a record
gets a failed "not found" result and no executor call (second conjunct);
and when several live members expose the same (present, non-empty) email,
the identifier of the latest one in iteration order wins (third conjunct). -/
theorem claim_C10 :
    (∀ (l1 l2 : List Member) (m : Member),
      (m.user = none ∨ ∃ u, m.user = some u ∧ u.email = none) →
      member_id_by_email (l1 ++ m :: l2) = member_id_by_email (l1 ++ l2)) ∧
    (∀ (exec : ExecCall → ExecOutcome) (aid : String) (d : Bool)
        (dm : CloudflareAccountMember) (m : Member),
      (m.user = none ∨ ∃ u, m.user = some u ∧ u.email = none) →
      import_account_members exec (Except.ok [m]) aid [dm] d =
        ([⟨"cloudflare_account_member.this[\"" ++ sanitize_email dm.email ++
            "\"]", "", false,
            some ("Account member '" ++ dm.email ++ "' not found")⟩], [])) ∧
    (∀ (xs : List Member) (b : Member) (u : User) (e : String),
      b.user = some u → u.email = some e → e ≠ "" →
      dictGet (member_id_by_email (xs ++ [b])) e = some b.id) := by
  refine ⟨?_, ?_, ?_⟩
  · intro l1 l2 m hm
    rw [show l1 ++ m :: l2 = l1 ++ ([m] ++ l2) from rfl,
      member_id_by_email_append, member_id_by_email_append,
      member_id_by_email_excluded m hm, List.nil_append,
      ← member_id_by_email_append]
  · intro exec aid d dm m hm
    rw [show import_account_members exec (Except.ok [m]) aid [dm] d =
        membersLoop exec (member_id_by_email [m]) aid d [dm] from rfl,
      member_id_by_email_excluded m hm, membersLoop_cons,
      mstep_none exec [] aid d dm rfl]
    rfl
  · intro xs b u e hb hu he
    have hone : member_id_by_email [b] = [(e, b.id)] := by
      simp [member_id_by_email, hb, hu, he]
    rw [member_id_by_email_append, hone, dictGet_last]

theorem claim_C10_witness :
    member_id_by_email ([] ++ (⟨"m1", none⟩ : Member) :: []) =
      member_id_by_email ([] ++ []) ∧
    import_account_members (fun _ => ExecOutcome.ok)
        (Except.ok [⟨"m1", none⟩]) "acct-123"
        [⟨"user@example.com", ["Administrator Read Only"]⟩] false =
      ([⟨"cloudflare_account_member.this[\"" ++
          sanitize_email "user@example.com" ++ "\"]", "", false,
          some ("Account member '" ++ "user@example.com" ++
            "' not found")⟩], []) ∧
    dictGet (member_id_by_email
        ([⟨"mA", some ⟨some "dup@example.com"⟩⟩] ++
          [⟨"mB", some ⟨some "dup@example.com"⟩⟩])) "dup@example.com" =
      some "mB" :=
  ⟨claim_C10.1 [] [] ⟨"m1", none⟩ (Or.inl rfl),
    claim_C10.2.1 (fun _ => ExecOutcome.ok) "acct-123" false
      ⟨"user@example.com", ["Administrator Read Only"]⟩ ⟨"m1", none⟩
      (Or.inl rfl),
    claim_C10.2.2 [⟨"mA", some ⟨some "dup@example.com"⟩⟩]
      ⟨"mB", some ⟨some "dup@example.com"⟩⟩ ⟨some "dup@example.com"⟩
      "dup@example.com" rfl rfl (by decide)⟩

/-- C1 counterexample: for an account with a known id, one declared member
and a raising list-members call, `import_state` returns ONE result (the
account result only), not `1 + 1 = 2` as the claim states: the member loop
is never reached, so no per-member `success=false` results are produced. -/
theorem claim_C1_counterexample :
    (import_state (fun _ => ExecOutcome.ok) (Except.error ())
        ⟨some "acct-123", "Test Account", none, none,
          [⟨"user@example.com", ["Administrator Read Only"]⟩]⟩ false).map
      (fun p => p.1.length) = Except.ok 1 ∧ 1 ≠ 1 + 1 :=
  ⟨rfl, by decide⟩

/-- C1 amended: when the list-members call raises, `import_account_members`
returns the empty result list (and makes no executor call), so
`import_state` returns exactly one result — the account result — however
many members are declared; the result list has length 1, not
`1 + number of declared members`. -/
theorem claim_C1_amended (exec : ExecCall → ExecOutcome) (u : Unit)
    (acct : CloudflareAccount) (aid : String) (d : Bool)
    (h : acct.account_id = some aid) :
    import_account_members exec (Except.error u) aid acct.members d =
      ([], []) ∧
    import_state exec (Except.error u) acct d =
      .ok ([(import_account exec aid d).1],
        [⟨"cloudflare_account.this", aid, d⟩]) ∧
    (import_account exec aid d).1.resource_address =
      "cloudflare_account.this" ∧
    (import_account exec aid d).1.import_id = aid := by
  refine ⟨rfl, ?_, (import_resource_fst exec "cloudflare_account.this" aid d).1,
    (import_resource_fst exec "cloudflare_account.this" aid d).2⟩
  have hsnd : (import_account exec aid d).2 =
      [⟨"cloudflare_account.this", aid, d⟩] :=
    import_resource_snd exec "cloudflare_account.this" aid d
  rw [import_state_ok exec (Except.error u) acct aid d h]
  show Except.ok ((import_account exec aid d).1 :: [],
    (import_account exec aid d).2 ++ []) = _
  rw [List.append_nil, hsnd]

theorem claim_C1_amended_witness :
    import_account_members (fun _ => ExecOutcome.ok) (Except.error ())
        "acct-123"
        ([⟨"user@example.com", ["Administrator Read Only"]⟩] :
          List CloudflareAccountMember) false = ([], []) ∧
    import_state (fun _ => ExecOutcome.ok) (Except.error ())
        ⟨some "acct-123", "Test Account", none, none,
          [⟨"user@example.com", ["Administrator Read Only"]⟩]⟩ false =
      .ok ([⟨"cloudflare_account.this", "acct-123", true, none⟩],
        [⟨"cloudflare_account.this", "acct-123", false⟩]) :=
  have h := claim_C1_amended (fun _ => ExecOutcome.ok) ()
    ⟨some "acct-123", "Test Account", none, none,
      [⟨"user@example.com", ["Administrator Read Only"]⟩]⟩
    "acct-123" false rfl
  ⟨h.1, h.2.1⟩

/-- C2 counterexample: a declared member whose email differs from the one
live member's email ONLY in letter case (the second conjunct exhibits that
the two emails agree after lower-casing) is NOT matched: the member loop
produces a failed "not found" result with empty import id, and no executor
call is made — the claim's case-insensitive match would have imported it
with import id `"acct-123/M"`. -/
theorem claim_C2_counterexample :
    import_account_members (fun _ => ExecOutcome.ok)
        (Except.ok [⟨"M", some ⟨some "user@example.com"⟩⟩]) "acct-123"
        [⟨"User@Example.com", []⟩] false =
      ([⟨"cloudflare_account_member.this[\"user-example-com\"]", "", false,
          some "Account member 'User@Example.com' not found"⟩], []) ∧
    (⟨List.map lowerChar "User@Example.com".data⟩ : String) =
      "user@example.com" :=
  ⟨rfl, by decide⟩

/-- C2 amended: the email join is case-SENSITIVE exact string equality: a
match in the live index always comes from a live member whose stored email
is byte-for-byte equal to the declared email (first conjunct), and a
declared member whose email has no exact-equality entry in the index —
including one that differs from a live email only in letter case — gets the
failed "not found" result with empty import id and no executor call (second
conjunct). -/
theorem claim_C2_amended :
    (∀ (live : List Member) (e v : String),
      dictGet (member_id_by_email live) e = some v →
      ∃ mem, mem ∈ live ∧
        ∃ u, mem.user = some u ∧ u.email = some e ∧ mem.id = v) ∧
    (∀ (exec : ExecCall → ExecOutcome) (idx : List (String × String))
        (aid : String) (d : Bool) (m : CloudflareAccountMember),
      dictGet idx m.email = none →
      mstep exec idx aid d m =
        (⟨"cloudflare_account_member.this[\"" ++ sanitize_email m.email ++
            "\"]", "", false,
            some ("Account member '" ++ m.email ++ "' not found")⟩, [])) :=
  ⟨dictGet_member_id_by_email_exact, mstep_none⟩

theorem claim_C2_amended_witness :
    mstep (fun _ => ExecOutcome.ok)
        (member_id_by_email [⟨"M", some ⟨some "user@example.com"⟩⟩])
        "acct-123" false ⟨"User@Example.com", []⟩ =
      (⟨"cloudflare_account_member.this[\"user-example-com\"]", "", false,
        some "Account member 'User@Example.com' not found"⟩, []) :=
  claim_C2_amended.2 (fun _ => ExecOutcome.ok)
    (member_id_by_email [⟨"M", some ⟨some "user@example.com"⟩⟩])
    "acct-123" false ⟨"User@Example.com", []⟩ rfl

end ERCA
